import Mathlib

/-!
Verification development for the winget update checker
(`scripts/check_updates.py`).  The Python functions are shallowly embedded
as executable Lean definitions; network and subprocess effects are
abstracted as explicit oracle parameters.  All definitions translate the
source code; `specCompare` alone is written from the specification's words
for a refinement comparison.
-/

/-! ## Python-style string primitives (char-list based, kernel-reducible) -/

/-- Python `str.split(sep)` for a single-character separator. -/
def splitOnChar (sep : Char) : List Char → List (List Char)
  | [] => [[]]
  | c :: cs =>
    let r := splitOnChar sep cs
    if c = sep then [] :: r
    else
      match r with
      | [] => [[c]]
      | g :: gs => (c :: g) :: gs

/-- Python `sep.join(parts)`. -/
def joinWith (sep : String) : List String → String
  | [] => ""
  | [x] => x
  | x :: y :: xs => x ++ sep ++ joinWith sep (y :: xs)

/-- Python truthiness of an optional string (`None` and `""` are falsy). -/
def pyTruthyO : Option String → Bool
  | none => false
  | some s => !s.data.isEmpty

/-- Does `s` start with `pat` (as char lists)? -/
def startsWithChars : List Char → List Char → Bool
  | _, [] => true
  | [], _ :: _ => false
  | c :: cs, p :: ps => c = p && startsWithChars cs ps

/-- Does `pat` occur somewhere in `s` (Python `pat in s`)? -/
def containsSeqChars : List Char → List Char → Bool
  | [], pat => pat.isEmpty
  | c :: cs, pat => startsWithChars (c :: cs) pat || containsSeqChars cs pat

/-- Fuel-driven worker for Python `str.replace` (leftmost, non-overlapping;
the pattern is assumed non-empty, as it is at every call site). -/
def replaceCharsFuel : Nat → List Char → List Char → List Char → List Char
  | 0, _, _, s => s
  | _ + 1, _, _, [] => []
  | fuel + 1, pat, rep, c :: cs =>
    if startsWithChars (c :: cs) pat && !pat.isEmpty then
      rep ++ replaceCharsFuel fuel pat rep ((c :: cs).drop pat.length)
    else
      c :: replaceCharsFuel fuel pat rep cs

/-- Python `s.replace(pat, rep)`. -/
def pyReplace (s pat rep : String) : String :=
  ⟨replaceCharsFuel (s.data.length + 1) pat.data rep.data s.data⟩

/-- Python code-point comparison of strings: `a < b` (lexicographic). -/
def pyCharsLt : List Char → List Char → Bool
  | _, [] => false
  | [], _ :: _ => true
  | a :: as, b :: bs =>
    if a.toNat < b.toNat then true
    else if b.toNat < a.toNat then false
    else pyCharsLt as bs

/-- Python `a < b` on strings. -/
def pyStrLt (a b : String) : Bool := pyCharsLt a.data b.data

/-- Insert into a descending-sorted list (helper for `pySortDesc`). -/
def insertDesc (x : String) : List String → List String
  | [] => [x]
  | y :: ys => if pyStrLt y x then x :: y :: ys else y :: insertDesc x ys

/-- Python `list.sort(reverse=True)` on strings: descending lexicographic
sort by code points. -/
def pySortDesc : List String → List String
  | [] => []
  | x :: xs => insertDesc x (pySortDesc xs)

/-! ## VersionComparator: `_compare_versions` (source lines 212-234) -/

/-- Python `v.lstrip("v")`: drop every leading `v` character. -/
def stripLeadingV (s : String) : List Char := s.data.dropWhile (· == 'v')

/-- Worker collecting maximal digit runs (`re.findall(r"\d+", s)`). -/
def digitRunsAux : List Char → List Char → List (List Char)
  | [], cur => if cur.isEmpty then [] else [cur.reverse]
  | c :: cs, cur =>
    if c.isDigit then digitRunsAux cs (c :: cur)
    else if cur.isEmpty then digitRunsAux cs []
    else cur.reverse :: digitRunsAux cs []

/-- Numeric value of a digit run (Python `int(run)`). -/
def natOfDigits (cs : List Char) : Nat :=
  cs.foldl (fun n c => 10 * n + (c.toNat - 48)) 0

/-- `[int(x) for x in re.findall(r"\d+", s)]`. -/
def extractNums (cs : List Char) : List Nat :=
  (digitRunsAux cs []).map natOfDigits

/-- Right-pad a numeric sequence with zeros to length `n`
(`parts.extend([0] * (max_len - len(parts)))`). -/
def padZeros (l : List Nat) (n : Nat) : List Nat :=
  l ++ List.replicate (n - l.length) 0

/-- Element-wise comparison loop
(`for a, b in zip(v1_parts, v2_parts): ...; return 0`). -/
def cmpLists : List Nat → List Nat → Int
  | a :: as, b :: bs =>
    if b < a then 1 else if a < b then -1 else cmpLists as bs
  | _, _ => 0

/-- `_compare_versions(v1, v2)`: returns `1` (`v1 > v2`), `-1`, or `0`. -/
def compareVersions (v1 v2 : String) : Int :=
  let p1 := extractNums (stripLeadingV v1)
  let p2 := extractNums (stripLeadingV v2)
  let maxLen := max p1.length p2.length
  cmpLists (padZeros p1 maxLen) (padZeros p2 maxLen)

/-! ## Specification-worded comparator (for the C1 refinement) -/

/-- First element-wise unequal pair of two sequences. -/
def firstDiff : List Nat → List Nat → Option (Nat × Nat)
  | a :: as, b :: bs => if a ≠ b then some (a, b) else firstDiff as bs
  | _, _ => none

/-- Modelled from the spec's words (§4.4): strip the leading `v` prefix,
extract maximal digit runs as integers, right-pad the shorter sequence
with zeros, and let the first unequal pair decide; equal if none. -/
def specCompare (v1 v2 : String) : Int :=
  let s1 := extractNums (stripLeadingV v1)
  let s2 := extractNums (stripLeadingV v2)
  let n := max s1.length s2.length
  match firstDiff (padZeros s1 n) (padZeros s2 n) with
  | some (x, y) => if x > y then 1 else -1
  | none => 0

/-! ## A small regex engine for the concrete patterns the claims use
(`re.match` / `re.search` with literals, `\d`, `\s`, `[\d.]`, `+`, `*`,
and one capture group; Python's leftmost greedy backtracking). -/

/-- Single-character regex atoms. -/
inductive RAtom where
  | lit (c : Char)
  | digit
  | space
  | digitOrDot
deriving DecidableEq

/-- Does the atom accept the character? -/
def RAtom.accepts : RAtom → Char → Bool
  | .lit c, c' => c' = c
  | .digit, c' => c'.isDigit
  | .space, c' => c'.isWhitespace
  | .digitOrDot, c' => c'.isDigit || c' = '.'

/-- Flat regex tokens; `gopen`/`gclose` delimit the single capture group. -/
inductive RTok where
  | atom (a : RAtom)
  | plus (a : RAtom)
  | star (a : RAtom)
  | gopen
  | gclose
deriving DecidableEq

/-- Backtracking matcher.  `gstart` is the remaining input at the capture
group's opening, `gcap` the finished capture; greedy alternatives are
tried first, reproducing Python's semantics.  Returns the capture on
success (the match itself need not reach the end of the input, as with
`re.search`/`re.match`). -/
def rmatch : Nat → List RTok → List Char → Option (List Char) →
    Option (List Char) → Option (Option (List Char))
  | _, [], _, _, gcap => some gcap
  | 0, _ :: _, _, _, _ => none
  | fuel + 1, t :: ts, s, gstart, gcap =>
    match t with
    | .gopen => rmatch fuel ts s (some s) gcap
    | .gclose =>
      match gstart with
      | some st => rmatch fuel ts s gstart (some (st.take (st.length - s.length)))
      | none => none
    | .atom a =>
      match s with
      | [] => none
      | c :: s' => if a.accepts c then rmatch fuel ts s' gstart gcap else none
    | .plus a =>
      match s with
      | [] => none
      | c :: s' =>
        if a.accepts c then
          match rmatch fuel (.plus a :: ts) s' gstart gcap with
          | some r => some r
          | none => rmatch fuel ts s' gstart gcap
        else none
    | .star a =>
      match s with
      | [] => rmatch fuel ts s gstart gcap
      | c :: s' =>
        if a.accepts c then
          match rmatch fuel (.star a :: ts) s' gstart gcap with
          | some r => some r
          | none => rmatch fuel ts s gstart gcap
        else rmatch fuel ts s gstart gcap

/-- Anchored match attempt at the current position (Python `re.match`). -/
def reMatchAt (toks : List RTok) (s : List Char) : Option (Option (List Char)) :=
  rmatch (toks.length + s.length + 1) toks s none none

/-- Unanchored search: try offsets left to right (Python `re.search`). -/
def searchAux (toks : List RTok) : List Char → Option (Option (List Char))
  | [] => reMatchAt toks []
  | c :: s' =>
    match reMatchAt toks (c :: s') with
    | some cap => some cap
    | none => searchAux toks s'

/-- `re.search(pattern, s)` followed by `match.group(1)`. -/
def searchGroup1 (toks : List RTok) (s : String) : Option String :=
  match searchAux toks s.data with
  | some (some cs) => some (String.mk cs)
  | some none => none
  | none => none

/-- The spec's main pattern `v(\d+\.\d+\.\d+)` as tokens. -/
def mainPattern : List RTok :=
  [.atom (.lit 'v'), .gopen, .plus .digit, .atom (.lit '.'), .plus .digit,
   .atom (.lit '.'), .plus .digit, .gclose]

/-- The spec's tag filter `^v\d` as tokens (anchoring is `re.match`'s). -/
def tagFilterToks : List RTok := [.atom (.lit 'v'), .atom .digit]

/-- Literal-text tokens (helper for patterns with literal prefixes). -/
def litToks (s : String) : List RTok := s.data.map (fun c => .atom (.lit c))

/-- The manifest pattern `PackageVersion:\s*([\d.]+)` as tokens. -/
def packageVersionToks : List RTok :=
  litToks "PackageVersion:" ++ [.star .space, .gopen, .plus .digitOrDot, .gclose]

/-! ## VersionParser: `_parse_version` with type `"regex"` (lines 103-119) -/

/-- `_parse_version` for a regex descriptor: reject tokens failing the
anchored tag filter, otherwise return the first capture group of the
first match of the main pattern. -/
def parseVersionRegex (pat : List RTok) (tagFilter : Option (List RTok))
    (raw : String) : Option String :=
  match tagFilter with
  | some tf =>
    match reMatchAt tf raw.data with
    | none => none
    | some _ => searchGroup1 pat raw
  | none => searchGroup1 pat raw

/-! ## Json model and `_get_jsonpath_value` (lines 125-140) -/

/-- JSON documents. -/
inductive Json where
  | null
  | bool (b : Bool)
  | num (n : Int)
  | str (s : String)
  | arr (elems : List Json)
  | obj (fields : List (String × Json))

/-- Association-list lookup (Python `value[part]` on a mapping; `none`
models the raised `KeyError`/`TypeError`). -/
def lookupAssoc : List (String × Json) → String → Option Json
  | [], _ => none
  | (k, v) :: rest, key => if k = key then some v else lookupAssoc rest key

/-- Mapping lookup on a JSON value. -/
def Json.lookupKey : Json → String → Option Json
  | .obj fields, key => lookupAssoc fields key
  | _, _ => none

/-- Python sequence indexing `value[i]` with negative-index semantics. -/
def Json.indexAt : Json → Int → Option Json
  | .arr xs, i =>
    let n : Int := Int.ofNat xs.length
    let j := if i < 0 then i + n else i
    if 0 ≤ j ∧ j < n then xs.get? j.toNat else none
  | _, _ => none

/-- Python `str.rstrip(c)` on char lists. -/
def rstripChar (c : Char) (cs : List Char) : List Char :=
  (cs.reverse.dropWhile (· == c)).reverse

/-- Python `int(s)` restricted to an optional sign plus decimal digits
(`none` models the raised `ValueError`). -/
def parseIntChars (cs : List Char) : Option Int :=
  match cs with
  | '-' :: ds =>
    if ds.isEmpty then none
    else if ds.all Char.isDigit then some (-(Int.ofNat (natOfDigits ds))) else none
  | ds =>
    if ds.isEmpty then none
    else if ds.all Char.isDigit then some (Int.ofNat (natOfDigits ds)) else none

/-- One path segment: `key[idx]` segments do a mapping lookup then a
sequence index; other segments are plain mapping lookups. -/
def jsonStep (value : Json) (part : List Char) : Option Json :=
  if part.contains '[' && (part.getLast? == some ']') then
    match splitOnChar '[' part with
    | key :: piece1 :: _ =>
      match parseIntChars (rstripChar ']' piece1) with
      | some idx =>
        match value.lookupKey (String.mk key) with
        | some inner => inner.indexAt idx
        | none => none
      | none => none
    | _ => none
  else value.lookupKey (String.mk part)

/-- Iterate the segments (the `for part in parts` loop). -/
def jsonWalk : Json → List (List Char) → Option Json
  | v, [] => some v
  | v, part :: rest =>
    match jsonStep v part with
    | none => none
    | some v' => jsonWalk v' rest

/-- `_get_jsonpath_value(data, path)`: `path.lstrip("$")`, split on `.`,
then walk; `none` models the exception propagated to the caller. -/
def getJsonpathValue (data : Json) (path : String) : Option Json :=
  jsonWalk data (splitOnChar '.' (path.data.dropWhile (· == '$')))

/-! ## PublishedVersionResolver: `_get_current_winget_version` (lines 142-210) -/

/-- Response of the directory-listing API (entries are `(name, type)`
pairs); `notFound` is an HTTP 404, `httpError` any other failure. -/
inductive ListingResp where
  | notFound
  | ok (entries : List (String × String))
  | httpError

/-- Response of the raw-file endpoint. -/
inductive FileResp where
  | notFound
  | ok (content : String)
  | httpError

/-- The pure prefix of `_get_current_winget_version`: split the winget id
on `.`, fail with fewer than 2 parts, take the first part as publisher
(whose empty case models the `IndexError` from `publisher[0]`), join the
rest as the package name, and build
`manifests/<first_letter>/<publisher>/<package_name>`. -/
def derivePackageDir (wingetId : String) : Option String :=
  match splitOnChar '.' wingetId.data with
  | [] => none
  | [_] => none
  | p :: rest =>
    match p with
    | [] => none
    | c :: _ =>
      some ("manifests/" ++ (Char.toLower c).toString ++ "/" ++ String.mk p
        ++ "/" ++ joinWith "." (rest.map String.mk))

/-- `_get_current_winget_version(package)` with the two HTTP calls
abstracted as oracles keyed by the queried path/URL.  Every caught
exception and non-2xx status becomes `none`, as in the source. -/
def getCurrentWingetVersion (wingetId : String)
    (listing : String → ListingResp) (fetchRaw : String → FileResp) :
    Option String :=
  match derivePackageDir wingetId with
  | none => none
  | some dir =>
    match listing dir with
    | .notFound => none
    | .httpError => none
    | .ok entries =>
      let versionDirs := (entries.filter (fun e => e.snd == "dir")).map (·.fst)
      match pySortDesc versionDirs with
      | [] => none
      | latestDir :: _ =>
        let manifestUrl :=
          "https://raw.githubusercontent.com/microsoft/winget-pkgs/master/"
            ++ dir ++ "/" ++ latestDir ++ "/" ++ wingetId ++ ".yaml"
        match fetchRaw manifestUrl with
        | .notFound => none
        | .httpError => none
        | .ok content => searchGroup1 packageVersionToks content

/-! ## Installers, URL validation and the komac command (lines 236-293) -/

/-- An installer descriptor: optional `url` and `url-template` fields. -/
structure Installer where
  url : Option String
  urlTemplate : Option String
deriving DecidableEq

/-- Outcome of a `requests.head` call, supplied as an oracle. -/
inductive HeadOutcome where
  | status (code : Nat)
  | transportError
deriving DecidableEq

/-- `{version}` substitution into a url (guarded by containment, as in
the source). -/
def substituteVersion (u v : String) : String :=
  if containsSeqChars u.data "{version}".data then pyReplace u "{version}" v
  else u

/-- `url if url else url_template`, then `{version}` substitution;
`none` means no URL at all. -/
def resolvedUrl (inst : Installer) (v : String) : Option String :=
  match (if pyTruthyO inst.url then inst.url else inst.urlTemplate) with
  | none => none
  | some u => some (substituteVersion u v)

/-- The `for installer in installers` loop of `_check_installer_urls`:
returns the verdict and the list of URLs actually HEAD-requested.  A
missing URL models `requests.head(None)` raising before any request. -/
def checkUrlsLoop (installers : List Installer) (v : String)
    (head : String → HeadOutcome) : Bool × List String :=
  match installers with
  | [] => (true, [])
  | inst :: rest =>
    match resolvedUrl inst v with
    | none => (false, [])
    | some u =>
      match head u with
      | .transportError => (false, [u])
      | .status code =>
        if 400 ≤ code then (false, [u])
        else
          let r := checkUrlsLoop rest v head
          (r.fst, u :: r.snd)

/-- `_check_installer_urls` plus the list of issued HEAD requests. -/
def checkInstallerUrlsR (skipChecks : List String) (installers : List Installer)
    (v : String) (head : String → HeadOutcome) : Bool × List String :=
  if "url-check" ∈ skipChecks then (true, [])
  else checkUrlsLoop installers v head

/-- `_check_installer_urls(package, version)`. -/
def checkInstallerUrls (skipChecks : List String) (installers : List Installer)
    (v : String) (head : String → HeadOutcome) : Bool :=
  (checkInstallerUrlsR skipChecks installers v head).fst

/-- The fixed part of the komac invocation.  Entries are `Option String`
because Python appends `None` for an installer with no URL. -/
def komacBase (wingetId newVersion : String) : List (Option String) :=
  [some "komac", some "update", some "--id", some wingetId,
   some "--version", some newVersion]

/-- The `--urls` pair contributed by one installer. -/
def komacUrlArgs (v : String) (inst : Installer) : List (Option String) :=
  [some "--urls", resolvedUrl inst v]

/-- `_generate_komac_command(package, new_version)`. -/
def generateKomacCommand (wingetId : String) (installers : List Installer)
    (newVersion : String) : List (Option String) :=
  komacBase wingetId newVersion
    ++ ((installers.map (komacUrlArgs newVersion)).flatten ++ [some "--submit"])

/-! ## Orchestrator: `run_checks` (lines 295-349) -/

/-- Everything `run_checks` consumes for one package: the configured
fields plus the results of the two network resolutions and the HEAD
oracle. -/
structure PkgCtx where
  pkgId : String
  wingetId : String
  latest : Option String
  current : Option String
  skipChecks : List String
  installers : List Installer
  head : String → HeadOutcome

/-- What one loop iteration of `run_checks` produces: log lines, the
komac invocations executed, and the `has_updates` contribution. -/
structure PkgOutcome where
  logs : List String
  invocations : List (List (Option String))
  updated : Bool
deriving DecidableEq

/-- One iteration of the `for package in packages` loop of `run_checks`.
The early `continue`s become `else` branches; the dead
`if not current_version` block of source lines 323-329 is kept in place
(its condition can no longer hold there). -/
def processPackage (ctx : PkgCtx) : PkgOutcome :=
  let log1 := "\nChecking package: " ++ ctx.pkgId
  if pyTruthyO ctx.latest then
    let latestVersion := ctx.latest.getD ""
    let log2 := "Latest version: " ++ latestVersion
    if pyTruthyO ctx.current then
      let currentVersion := ctx.current.getD ""
      let log3 := "Current version: " ++ currentVersion
      let comparison := compareVersions latestVersion currentVersion
      if pyTruthyO ctx.current then
        if 0 < comparison then
          let log4 := "Update available: " ++ currentVersion ++ " -> " ++ latestVersion
          if checkInstallerUrls ctx.skipChecks ctx.installers latestVersion ctx.head then
            ⟨[log1, log2, log3, log4],
             [generateKomacCommand ctx.wingetId ctx.installers latestVersion], true⟩
          else
            ⟨[log1, log2, log3, log4,
              "Skipping update for " ++ ctx.pkgId ++ ": installer URL check failed"],
             [], false⟩
        else
          ⟨[log1, log2, log3, "No update needed for " ++ ctx.pkgId], [], false⟩
      else
        ⟨[log1, log2, log3,
          "Package " ++ ctx.wingetId ++ " not found in winget-pkgs",
          "To create a new package, use: komac new --id " ++ ctx.wingetId
            ++ " --version " ++ latestVersion],
         [], false⟩
    else
      ⟨[log1, log2, "Failed to get current winget version for " ++ ctx.pkgId],
       [], false⟩
  else
    ⟨[log1, "Failed to get latest version for " ++ ctx.pkgId], [], false⟩

/-- `run_checks` over the whole package list. -/
def runChecks (pkgs : List PkgCtx) : PkgOutcome :=
  pkgs.foldl
    (fun acc p =>
      let r := processPackage p
      ⟨acc.logs ++ r.logs, acc.invocations ++ r.invocations, acc.updated || r.updated⟩)
    ⟨[], [], false⟩

/-! ## Helper lemmas about the comparison loop -/

/-- Swapping the arguments of the comparison loop negates the result. -/
theorem cmpLists_swap (as : List Nat) : ∀ bs : List Nat,
    cmpLists bs as = -cmpLists as bs := by
  induction as with
  | nil => intro bs; cases bs <;> simp [cmpLists]
  | cons a as ih =>
    intro bs
    cases bs with
    | nil => simp [cmpLists]
    | cons b bs =>
      simp only [cmpLists]
      split_ifs with h1 h2 h3 <;> first
        | rfl
        | omega
        | exact ih bs

/-- Appending one zero to both equal-length lists preserves the result. -/
theorem cmpLists_append_zero : ∀ as bs : List Nat, as.length = bs.length →
    cmpLists (as ++ [0]) (bs ++ [0]) = cmpLists as bs := by
  intro as
  induction as with
  | nil =>
    intro bs h
    have : bs = [] := List.eq_nil_of_length_eq_zero h.symm
    subst this
    simp [cmpLists]
  | cons a as ih =>
    intro bs h
    cases bs with
    | nil => simp at h
    | cons b bs =>
      simp only [List.cons_append, cmpLists]
      split_ifs
      · rfl
      · rfl
      · exact ih bs (by simpa using h)

/-- Length of a zero-padded list. -/
theorem padZeros_length (l : List Nat) (n : Nat) (h : l.length ≤ n) :
    (padZeros l n).length = n := by
  simp [padZeros]
  omega

/-- Padding one step further appends a zero. -/
theorem padZeros_succ (l : List Nat) (n : Nat) (h : l.length ≤ n) :
    padZeros l (n + 1) = padZeros l n ++ [0] := by
  unfold padZeros
  have hn : n + 1 - l.length = (n - l.length) + 1 := by omega
  rw [hn, List.replicate_succ', ← List.append_assoc]

/-- The comparison of two padded lists is stable under padding both
beyond their lengths. -/
theorem cmpPad_stable (as bs : List Nat) (m : Nat)
    (h1 : as.length ≤ m) (h2 : bs.length ≤ m) : ∀ k : Nat,
    cmpLists (padZeros as (m + k)) (padZeros bs (m + k))
      = cmpLists (padZeros as m) (padZeros bs m) := by
  intro k
  induction k with
  | zero => rfl
  | succ k ih =>
    have ha : as.length ≤ m + k := by omega
    have hb : bs.length ≤ m + k := by omega
    have hs : m + (k + 1) = (m + k) + 1 := rfl
    rw [hs, padZeros_succ as (m + k) ha, padZeros_succ bs (m + k) hb,
      cmpLists_append_zero _ _
        (by rw [padZeros_length _ _ ha, padZeros_length _ _ hb]),
      ih]

/-- `_compare_versions` equals the padded comparison at any sufficiently
large common width. -/
theorem compareVersions_eq_pad (v1 v2 : String) (n : Nat)
    (h1 : (extractNums (stripLeadingV v1)).length ≤ n)
    (h2 : (extractNums (stripLeadingV v2)).length ≤ n) :
    compareVersions v1 v2
      = cmpLists (padZeros (extractNums (stripLeadingV v1)) n)
          (padZeros (extractNums (stripLeadingV v2)) n) := by
  unfold compareVersions
  set p1 := extractNums (stripLeadingV v1) with hp1
  set p2 := extractNums (stripLeadingV v2) with hp2
  have hm : max p1.length p2.length ≤ n := by omega
  have hn : n = max p1.length p2.length + (n - max p1.length p2.length) := by
    omega
  rw [hn,
    cmpPad_stable p1 p2 (max p1.length p2.length) (Nat.le_max_left _ _)
      (Nat.le_max_right _ _)]

/-- Head-case characterisation of the comparison loop returning `1`. -/
theorem cmpLists_cons_one (a b : Nat) (as bs : List Nat) :
    cmpLists (a :: as) (b :: bs) = 1 ↔
      b < a ∨ (a = b ∧ cmpLists as bs = 1) := by
  simp only [cmpLists]
  split_ifs with h1 h2
  · simp [h1]
  · constructor
    · intro h; exact absurd h (by decide)
    · rintro (h | ⟨h, _⟩) <;> omega
  · have hab : a = b := by omega
    constructor
    · intro h; exact Or.inr ⟨hab, h⟩
    · rintro (h | ⟨_, h⟩)
      · exact absurd h h1
      · exact h

/-- The comparison loop is transitive in its `1` verdict. -/
theorem cmpLists_trans : ∀ xs ys zs : List Nat,
    cmpLists xs ys = 1 → cmpLists ys zs = 1 → cmpLists xs zs = 1 := by
  intro xs
  induction xs with
  | nil =>
    intro ys zs h1 _
    cases ys <;> simp [cmpLists] at h1
  | cons a xs ih =>
    intro ys zs h1 h2
    cases ys with
    | nil => simp [cmpLists] at h1
    | cons b ys =>
      cases zs with
      | nil => simp [cmpLists] at h2
      | cons c zs =>
        rw [cmpLists_cons_one] at h1 h2 ⊢
        rcases h1 with hba | ⟨hab, h1'⟩
        · rcases h2 with hcb | ⟨hbc, _⟩
          · exact Or.inl (by omega)
          · exact Or.inl (by omega)
        · rcases h2 with hcb | ⟨hbc, h2'⟩
          · exact Or.inl (by omega)
          · exact Or.inr ⟨by omega, ih ys zs h1' h2'⟩

/-- The comparison loop phrased through the first unequal pair. -/
theorem cmpLists_eq_firstDiff : ∀ as bs : List Nat,
    cmpLists as bs
      = (match firstDiff as bs with
         | some (x, y) => if x > y then (1 : Int) else -1
         | none => 0) := by
  intro as
  induction as with
  | nil => intro bs; cases bs <;> simp [cmpLists, firstDiff]
  | cons a as ih =>
    intro bs
    cases bs with
    | nil => simp [cmpLists, firstDiff]
    | cons b bs =>
      simp only [cmpLists, firstDiff]
      by_cases hab : a = b
      · subst hab
        rw [if_neg (by omega), if_neg (by omega), if_neg (by simp)]
        exact ih bs
      · rcases Nat.lt_trichotomy a b with h | h | h
        · rw [if_neg (by omega), if_pos h, if_pos hab]
          show (-1 : Int) = if a > b then 1 else -1
          rw [if_neg (by omega)]
        · exact absurd h hab
        · rw [if_pos h, if_pos hab]
          show (1 : Int) = if a > b then 1 else -1
          rw [if_pos h]

/-! ## Helper lemmas about URL validation and command assembly -/

/-- The validation loop succeeds exactly when every installer resolves to
a URL whose HEAD answer is a status below 400. -/
theorem checkUrlsLoop_true_iff (v : String) (head : String → HeadOutcome) :
    ∀ installers : List Installer,
    (checkUrlsLoop installers v head).fst = true ↔
      ∀ inst ∈ installers, ∃ u, resolvedUrl inst v = some u ∧
        ∃ n, head u = HeadOutcome.status n ∧ n < 400 := by
  intro installers
  induction installers with
  | nil => simp [checkUrlsLoop]
  | cons inst rest ih =>
    rcases hr : resolvedUrl inst v with _ | u
    · simp only [checkUrlsLoop, hr, List.forall_mem_cons]
      constructor
      · intro h; exact absurd h (by decide)
      · rintro ⟨⟨u, hu, _⟩, _⟩; cases hu
    · rcases hh : head u with n | _
      · by_cases h4 : 400 ≤ n
        · simp only [checkUrlsLoop, hr, hh, if_pos h4, List.forall_mem_cons]
          constructor
          · intro h; exact absurd h (by decide)
          · rintro ⟨⟨u', hu', n', hn', hlt⟩, _⟩
            cases hu'
            rw [hh] at hn'
            cases hn'
            omega
        · simp only [checkUrlsLoop, hr, hh, if_neg h4, List.forall_mem_cons]
          rw [ih]
          constructor
          · intro h
            exact ⟨⟨u, rfl, n, hh, by omega⟩, h⟩
          · rintro ⟨_, h⟩; exact h
      · simp only [checkUrlsLoop, hr, hh, List.forall_mem_cons]
        constructor
        · intro h; exact absurd h (by decide)
        · rintro ⟨⟨u', hu', n', hn', _⟩, _⟩
          cases hu'
          rw [hh] at hn'
          cases hn'

/-- If some installer fails to resolve to a URL, the validation loop
rejects (for any HEAD oracle). -/
theorem checkUrlsLoop_false_of_missing (v : String)
    (head : String → HeadOutcome) (installers : List Installer)
    (inst : Installer) (hmem : inst ∈ installers)
    (hnone : resolvedUrl inst v = none) :
    (checkUrlsLoop installers v head).fst = false := by
  cases h : (checkUrlsLoop installers v head).fst with
  | false => rfl
  | true =>
    obtain ⟨u, hu, _⟩ := (checkUrlsLoop_true_iff v head installers).mp h inst hmem
    rw [hnone] at hu
    cases hu

/-- A mapped element's image occurs contiguously in the flattened map. -/
theorem map_flatten_split {α β : Type} (f : α → List β) :
    ∀ (l : List α) (a : α), a ∈ l →
    ∃ p q, (l.map f).flatten = p ++ (f a ++ q) := by
  intro l
  induction l with
  | nil => intro a h; cases h
  | cons b l ih =>
    intro a h
    rcases List.mem_cons.mp h with rfl | h'
    · exact ⟨[], (l.map f).flatten, by simp⟩
    · obtain ⟨p, q, hpq⟩ := ih a h'
      exact ⟨f b ++ p, q, by simp [hpq]⟩

/-! ## Claim theorems -/

/-- C1: `_compare_versions` computes its result exactly as the spec's
algorithm states — strip the leading `v` prefix, extract all maximal
digit runs in order as integers, right-pad the shorter sequence with
zeros, compare element-wise with the first unequal pair deciding — and
on the spec's examples yields equal (`0`), greater (`1`), equal (`0`). -/
theorem compare_versions_matches_spec_algorithm :
    (∀ v1 v2 : String, compareVersions v1 v2 = specCompare v1 v2) ∧
    compareVersions "1.2.3" "1.2.3" = 0 ∧
    compareVersions "v2.0" "1.9.9" = 1 ∧
    compareVersions "1.2" "1.2.0" = 0 := by
  refine ⟨?_, by decide, by decide, by decide⟩
  intro v1 v2
  unfold compareVersions specCompare
  exact cmpLists_eq_firstDiff _ _

/-- C8: under the digit-run-extraction rule, `_compare_versions` is
antisymmetric (`1` on one side exactly when `-1` on the swapped side,
and `0` exactly when the swapped side is `0`) and transitive in its
strictly-greater verdict. -/
theorem compare_versions_antisymm_trans : ∀ a b c : String,
    (compareVersions a b = 1 ↔ compareVersions b a = -1) ∧
    (compareVersions a b = 0 ↔ compareVersions b a = 0) ∧
    (compareVersions a b = 1 → compareVersions b c = 1 →
      compareVersions a c = 1) := by
  intro a b c
  have hswap : ∀ x y : String, compareVersions y x = -compareVersions x y := by
    intro x y
    simp only [compareVersions]
    rw [Nat.max_comm (extractNums (stripLeadingV y)).length
      (extractNums (stripLeadingV x)).length]
    exact cmpLists_swap _ _
  refine ⟨?_, ?_, ?_⟩
  · rw [hswap a b]; omega
  · rw [hswap a b]; omega
  · intro h1 h2
    have hN1 : (extractNums (stripLeadingV a)).length ≤
        max (max (extractNums (stripLeadingV a)).length
          (extractNums (stripLeadingV b)).length)
          (extractNums (stripLeadingV c)).length := by omega
    have hN2 : (extractNums (stripLeadingV b)).length ≤
        max (max (extractNums (stripLeadingV a)).length
          (extractNums (stripLeadingV b)).length)
          (extractNums (stripLeadingV c)).length := by omega
    have hN3 : (extractNums (stripLeadingV c)).length ≤
        max (max (extractNums (stripLeadingV a)).length
          (extractNums (stripLeadingV b)).length)
          (extractNums (stripLeadingV c)).length := by omega
    rw [compareVersions_eq_pad a b _ hN1 hN2] at h1
    rw [compareVersions_eq_pad b c _ hN2 hN3] at h2
    rw [compareVersions_eq_pad a c _ hN1 hN3]
    exact cmpLists_trans _ _ _ h1 h2

/-- Witness for C8 at `"3.0"`, `"2.0"`, `"1.0"`: transitivity applied to
two concrete strictly-greater comparisons. -/
theorem compare_versions_antisymm_trans_witness :
    compareVersions "3.0" "1.0" = 1 :=
  (compare_versions_antisymm_trans "3.0" "2.0" "1.0").2.2 (by decide) (by decide)

/-- C4: there is a non-empty version-folder list on which the candidate
chosen by the descending lexicographic string sort is not the greatest
element under `_compare_versions` (`["9.0", "10.0"]` distinguishes the
orderings), while on an equal-digit-group-width list such as
`["1.02.3", "1.10.0"]` the two orderings agree. -/
theorem lexicographic_candidate_not_numeric_max :
    (∃ dirs : List String, dirs ≠ [] ∧ ∃ v ∈ dirs,
        compareVersions v ((pySortDesc dirs).headD "") = 1) ∧
    ((pySortDesc ["9.0", "10.0"]).headD "" = "9.0" ∧
      compareVersions "10.0" "9.0" = 1) ∧
    ((pySortDesc ["1.02.3", "1.10.0"]).headD "" = "1.10.0" ∧
      compareVersions "1.02.3" "1.10.0" ≠ 1 ∧
      compareVersions "1.10.0" "1.10.0" ≠ 1) :=
  ⟨⟨["9.0", "10.0"], by decide, "10.0", by decide, by decide⟩,
    ⟨by decide, by decide⟩, ⟨by decide, by decide, by decide⟩⟩

/-- C2: `_get_jsonpath_value` on the document
`{"data":{"releases":[{"tag":"2.1.0"}]}}` fails (raises, modelled as
`none`) for the spec's path `$.data.releases[0].tag` — stripping only
the `$` leaves a leading `.`, so the split produces an empty first
segment whose mapping lookup fails — while the same path without the
`$.` prefix extracts `"2.1.0"` exactly as the claim describes. -/
theorem jsonpath_dollar_prefixed_path_fails :
    getJsonpathValue
        (Json.obj [("data", Json.obj [("releases",
          Json.arr [Json.obj [("tag", Json.str "2.1.0")]])])])
        "$.data.releases[0].tag" = none ∧
    getJsonpathValue
        (Json.obj [("data", Json.obj [("releases",
          Json.arr [Json.obj [("tag", Json.str "2.1.0")]])])])
        "data.releases[0].tag" = some (Json.str "2.1.0") :=
  ⟨rfl, rfl⟩

/-- C5: the regex `_parse_version` rejects (with `none`, not an error)
any raw token failing the anchored tag filter, searches the main
pattern unanchored on passing tokens returning the first capture group
of the first match, and on pattern `v(\d+\.\d+\.\d+)` with filter
`^v\d` maps `"v1.4.0"` to `"1.4.0"` and `"nightly"` to `none`. -/
theorem regex_parser_filter_and_capture :
    (∀ raw : String, reMatchAt tagFilterToks raw.data = none →
        parseVersionRegex mainPattern (some tagFilterToks) raw = none) ∧
    (∀ raw : String, (reMatchAt tagFilterToks raw.data).isSome = true →
        parseVersionRegex mainPattern (some tagFilterToks) raw
          = searchGroup1 mainPattern raw) ∧
    parseVersionRegex mainPattern (some tagFilterToks) "v1.4.0" = some "1.4.0" ∧
    parseVersionRegex mainPattern (some tagFilterToks) "nightly" = none := by
  refine ⟨?_, ?_, by decide, by decide⟩
  · intro raw h
    simp only [parseVersionRegex, h]
  · intro raw h
    rcases hm : reMatchAt tagFilterToks raw.data with _ | cap
    · rw [hm] at h; exact absurd h (by decide)
    · simp only [parseVersionRegex, hm]

/-- Witness for C5 at `"beta-3"`: the filter-rejection clause applied to
a concrete token failing the tag filter. -/
theorem regex_parser_filter_and_capture_witness :
    parseVersionRegex mainPattern (some tagFilterToks) "beta-3" = none :=
  regex_parser_filter_and_capture.1 "beta-3" (by decide)

/-- C6: `_get_current_winget_version` takes the first dot-separated
segment of the identifier as publisher and the rest joined by `.` as
package name, querying `manifests/<lower first letter>/<publisher>/<name>`
(so `aome510.spotify-player` derives
`manifests/a/aome510/spotify-player`); identifiers with fewer than two
segments fail, and a 404 on the directory listing yields `none`. -/
theorem winget_id_directory_derivation :
    (∀ (id : String) (c : Char) (cs : List Char) (rest : List (List Char)),
        splitOnChar '.' id.data = (c :: cs) :: rest → rest ≠ [] →
        derivePackageDir id
          = some ("manifests/" ++ (Char.toLower c).toString ++ "/"
              ++ String.mk (c :: cs) ++ "/"
              ++ joinWith "." (rest.map String.mk))) ∧
    (∀ (id : String) (listing : String → ListingResp)
        (fetchRaw : String → FileResp),
        (splitOnChar '.' id.data).length < 2 →
        getCurrentWingetVersion id listing fetchRaw = none) ∧
    (∀ (id d : String) (listing : String → ListingResp)
        (fetchRaw : String → FileResp),
        derivePackageDir id = some d → listing d = ListingResp.notFound →
        getCurrentWingetVersion id listing fetchRaw = none) ∧
    derivePackageDir "aome510.spotify-player"
      = some "manifests/a/aome510/spotify-player" := by
  refine ⟨?_, ?_, ?_, by decide⟩
  · intro id c cs rest hsplit hrest
    cases rest with
    | nil => exact absurd rfl hrest
    | cons r rs => simp only [derivePackageDir, hsplit]
  · intro id listing fetchRaw hlen
    simp only [getCurrentWingetVersion, derivePackageDir]
    rcases hsplit : splitOnChar '.' id.data with _ | ⟨p, rest⟩
    · rfl
    · cases rest with
      | nil => rfl
      | cons q rest' =>
        rw [hsplit] at hlen
        simp only [List.length_cons] at hlen
        exfalso
        omega
  · intro id d listing fetchRaw hd hl
    simp only [getCurrentWingetVersion, hd, hl]

/-- Witness for C6: a 404 listing oracle on the derived directory for
`aome510.spotify-player` makes the resolver answer `none`. -/
theorem winget_id_directory_derivation_witness :
    getCurrentWingetVersion "aome510.spotify-player"
      (fun _ => ListingResp.notFound) (fun _ => FileResp.httpError) = none :=
  winget_id_directory_derivation.2.2.1 "aome510.spotify-player"
    "manifests/a/aome510/spotify-player" (fun _ => ListingResp.notFound)
    (fun _ => FileResp.httpError) (by decide) rfl

/-- C7: with the `url-check` skip-flag, `_check_installer_urls` succeeds
immediately issuing no request; otherwise it succeeds exactly when every
installer resolves to a URL answering HEAD with status below 400 (any
status ≥ 400, transport error, or missing URL rejects); and a
`{version}` template is substituted before the reachability check. -/
theorem installer_url_validation_rules (skipChecks : List String)
    (installers : List Installer) (v : String)
    (head : String → HeadOutcome) :
    ("url-check" ∈ skipChecks →
        checkInstallerUrlsR skipChecks installers v head = (true, [])) ∧
    ("url-check" ∉ skipChecks →
        (checkInstallerUrls skipChecks installers v head = true ↔
          ∀ inst ∈ installers, ∃ u, resolvedUrl inst v = some u ∧
            ∃ n, head u = HeadOutcome.status n ∧ n < 400)) ∧
    resolvedUrl ⟨none, some "https://host/v{version}/app.zip"⟩ "3.0.0"
      = some "https://host/v3.0.0/app.zip" := by
  refine ⟨?_, ?_, by decide⟩
  · intro h
    simp [checkInstallerUrlsR, h]
  · intro h
    unfold checkInstallerUrls checkInstallerUrlsR
    rw [if_neg h]
    exact checkUrlsLoop_true_iff v head installers

/-- Witness for C7: the skip-flag clause at a concrete package whose
oracle would fail every HEAD request, with no request issued. -/
theorem installer_url_validation_rules_witness :
    checkInstallerUrlsR ["url-check"] [⟨none, none⟩] "1.0"
      (fun _ => HeadOutcome.transportError) = (true, []) :=
  (installer_url_validation_rules ["url-check"] [⟨none, none⟩] "1.0"
    (fun _ => HeadOutcome.transportError)).1 (by decide)

/-- C10: an installer with neither `url` nor `url-template` still makes
`_generate_komac_command` emit `--urls` followed by a `None` argument,
and unless the `url-check` skip-flag is set, `_check_installer_urls`
rejects such a package for every HEAD oracle, so the command is only
reachable with validation bypassed. -/
theorem missing_url_yields_none_argument (wid : String)
    (installers : List Installer) (v : String) (inst : Installer)
    (hmem : inst ∈ installers) (hu : inst.url = none)
    (ht : inst.urlTemplate = none) :
    (∃ p q, generateKomacCommand wid installers v
        = p ++ ([some "--urls", (none : Option String)] ++ q)) ∧
    (∀ (skipChecks : List String) (head : String → HeadOutcome),
        "url-check" ∉ skipChecks →
        checkInstallerUrls skipChecks installers v head = false) := by
  have hres : resolvedUrl inst v = none := by
    simp [resolvedUrl, hu, ht, pyTruthyO]
  constructor
  · obtain ⟨p, q, hpq⟩ := map_flatten_split (komacUrlArgs v) installers inst hmem
    refine ⟨komacBase wid v ++ p, q ++ [some "--submit"], ?_⟩
    unfold generateKomacCommand
    rw [hpq]
    simp [komacUrlArgs, hres, List.append_assoc]
  · intro skipChecks head hs
    unfold checkInstallerUrls checkInstallerUrlsR
    rw [if_neg hs]
    exact checkUrlsLoop_false_of_missing v head installers inst hmem hres

/-- Witness for C10: a concrete URL-less installer fails validation even
though its HEAD oracle would answer 200. -/
theorem missing_url_yields_none_argument_witness :
    checkInstallerUrls [] [⟨none, none⟩] "2.0"
      (fun _ => HeadOutcome.status 200) = false :=
  (missing_url_yields_none_argument "pub.app" [⟨none, none⟩] "2.0"
    ⟨none, none⟩ (by decide) rfl rfl).2 [] (fun _ => HeadOutcome.status 200)
    (by decide)

/-- C3: one `run_checks` iteration for a package whose latest version
compares strictly greater than the current one and whose URL validation
passes executes exactly one komac invocation, which carries
`--version <latest>` and one `--urls` pair per installer with the
substituted URL; when latest compares equal or less, it executes zero
invocations and reports "no update needed". -/
theorem run_checks_update_decision (ctx : PkgCtx) (lv cv : String)
    (hl : ctx.latest = some lv) (hlt : pyTruthyO ctx.latest = true)
    (hc : ctx.current = some cv) (hct : pyTruthyO ctx.current = true) :
    (compareVersions lv cv = 1 →
        checkInstallerUrls ctx.skipChecks ctx.installers lv ctx.head = true →
        ((processPackage ctx).invocations
            = [generateKomacCommand ctx.wingetId ctx.installers lv] ∧
          (∃ p q, generateKomacCommand ctx.wingetId ctx.installers lv
              = p ++ ([some "--version", some lv] ++ q)) ∧
          ∀ inst ∈ ctx.installers, ∃ p q,
            generateKomacCommand ctx.wingetId ctx.installers lv
              = p ++ ([some "--urls", resolvedUrl inst lv] ++ q))) ∧
    (compareVersions lv cv ≤ 0 →
        (processPackage ctx).invocations = [] ∧
        ("No update needed for " ++ ctx.pkgId) ∈ (processPackage ctx).logs) := by
  have hlt' : pyTruthyO (some lv) = true := by rw [← hl]; exact hlt
  have hct' : pyTruthyO (some cv) = true := by rw [← hc]; exact hct
  constructor
  · intro hcomp hurl
    refine ⟨?_, ?_, ?_⟩
    · simp [processPackage, hl, hc, hlt', hct', hcomp, hurl]
    · refine ⟨[some "komac", some "update", some "--id", some ctx.wingetId],
        (ctx.installers.map (komacUrlArgs lv)).flatten ++ [some "--submit"], ?_⟩
      simp [generateKomacCommand, komacBase, List.append_assoc]
    · intro inst hmem
      obtain ⟨p, q, hpq⟩ := map_flatten_split (komacUrlArgs lv) ctx.installers inst hmem
      refine ⟨komacBase ctx.wingetId lv ++ p, q ++ [some "--submit"], ?_⟩
      unfold generateKomacCommand
      rw [hpq]
      simp [komacUrlArgs, List.append_assoc]
  · intro hcomp
    have hneg : ¬ (0 < compareVersions lv cv) := by omega
    constructor
    · simp [processPackage, hl, hc, hlt', hct', hneg]
    · simp [processPackage, hl, hc, hlt', hct', hneg]

/-- Witness for C3: the spec's end-to-end scenario — latest `2.0.0`,
current `1.9.0`, HEAD answering 200 — produces exactly one invocation. -/
theorem run_checks_update_decision_witness :
    (processPackage ⟨"spotify-player", "aome510.spotify-player",
        some "2.0.0", some "1.9.0", [],
        [⟨none, some "https://host/v{version}/app.zip"⟩],
        fun _ => HeadOutcome.status 200⟩).invocations
      = [generateKomacCommand "aome510.spotify-player"
          [⟨none, some "https://host/v{version}/app.zip"⟩] "2.0.0"] :=
  ((run_checks_update_decision
      ⟨"spotify-player", "aome510.spotify-player", some "2.0.0",
        some "1.9.0", [], [⟨none, some "https://host/v{version}/app.zip"⟩],
        fun _ => HeadOutcome.status 200⟩
      "2.0.0" "1.9.0" rfl (by decide) rfl (by decide)).1
    (by decide) (by decide)).1

/-- C9 (amended): when the current published version resolves to `None`,
`run_checks` logs the failure to get the current winget version and
skips the package with zero invocations; the "not found in winget-pkgs"
message and the `komac new` suggestion of source lines 323-329 are dead
code (the earlier skip at line 314 fires first) and are never logged. -/
theorem current_version_none_logs_failure_and_skips (ctx : PkgCtx) (lv : String)
    (hl : ctx.latest = some lv) (hlt : pyTruthyO ctx.latest = true)
    (hc : ctx.current = none) :
    processPackage ctx
      = ⟨["\nChecking package: " ++ ctx.pkgId, "Latest version: " ++ lv,
          "Failed to get current winget version for " ++ ctx.pkgId],
         [], false⟩ := by
  have hlt' : pyTruthyO (some lv) = true := by rw [← hl]; exact hlt
  have hfalse : pyTruthyO none = false := rfl
  simp [processPackage, hl, hc, hlt', hfalse]

/-- Witness for C9's amended claim at a concrete package context. -/
theorem current_version_none_logs_failure_and_skips_witness :
    processPackage ⟨"demo2", "pub.app2", some "3.1.4", none, [], [],
      fun _ => HeadOutcome.transportError⟩
      = ⟨["\nChecking package: demo2", "Latest version: 3.1.4",
          "Failed to get current winget version for demo2"], [], false⟩ :=
  current_version_none_logs_failure_and_skips
    ⟨"demo2", "pub.app2", some "3.1.4", none, [], [],
      fun _ => HeadOutcome.transportError⟩ "3.1.4" rfl (by decide) rfl

/-- Counterexample to C9 as stated: for a package whose current version
resolves to `None`, the `komac new` creation suggestion the claim
promises is not among the produced log lines; the logs are the
failed-to-get-current-version message instead. -/
theorem creation_suggestion_never_logged_counterexample :
    ("To create a new package, use: komac new --id pub.app --version 2.0.0") ∉
      (processPackage ⟨"demo", "pub.app", some "2.0.0", none, [], [],
        fun _ => HeadOutcome.status 200⟩).logs ∧
    (processPackage ⟨"demo", "pub.app", some "2.0.0", none, [], [],
        fun _ => HeadOutcome.status 200⟩).logs
      = ["\nChecking package: demo", "Latest version: 2.0.0",
         "Failed to get current winget version for demo"] :=
  ⟨by decide, by decide⟩
